import Mathlib

/-!
Shallow embedding of the curve-fitting endpoint in `backend/api/fitting.py`
(function `fit`, lines 107-266).

Numbers are modelled as exact rationals.  External collaborators are
abstracted:
* the nonlinear optimizer `scipy.optimize.curve_fit` is a `Regressor`
  parameter (its deterministic input checks — sigma shape, calling the model
  with a wrong-arity argument tuple — are modelled explicitly in
  `runCurveFit`, since they fire before the optimizer iterates);
* `scipy.stats.chi2.sf`, `numpy.sin`, `numpy.exp`, real powers and `pi` are
  fields of an `Externals` record;
* `numpy.sqrt` of a possibly-negative covariance diagonal entry is modelled
  by the symbolic codomain `SqrtVal` (`sqrtOf q` denotes the nonnegative real
  square root of `q`, `nan` the IEEE NaN produced on negative input);
* `float('inf')` for the reduced chi-squared is the `RedChi2.inf` tag.

`sympify` is an external parser; requests carry the parsed expression tree
(`MathExpr`, the fragment of sympy expressions the claims exercise) instead
of raw text.
-/

namespace Fitting

attribute [local semireducible] Rat.mul Rat.inv Rat.add Rat.sub

/-- Symbolic expression tree: the image of `sympify` on simple algebraic
model strings (constants, free symbols, `+`, `-`, `*`, unary minus, natural
powers). -/
inductive MathExpr where
  | num (q : ℚ)
  | var (s : String)
  | add (a b : MathExpr)
  | sub (a b : MathExpr)
  | mul (a b : MathExpr)
  | neg (a : MathExpr)
  | pow (a : MathExpr) (n : ℕ)
deriving DecidableEq

/-- All variable occurrences, left to right (with duplicates). -/
def collectVars : MathExpr → List String
  | .num _ => []
  | .var s => [s]
  | .add a b => collectVars a ++ collectVars b
  | .sub a b => collectVars a ++ collectVars b
  | .mul a b => collectVars a ++ collectVars b
  | .neg a => collectVars a
  | .pow a _ => collectVars a

/-- `expr.free_symbols`, as a duplicate-free list of symbol names. -/
def freeVars (e : MathExpr) : List String := (collectVars e).dedup

/-- Evaluate an expression under an environment for its free symbols. -/
def evalExpr (env : String → ℚ) : MathExpr → ℚ
  | .num q => q
  | .var s => env s
  | .add a b => evalExpr env a + evalExpr env b
  | .sub a b => evalExpr env a - evalExpr env b
  | .mul a b => evalExpr env a * evalExpr env b
  | .neg a => -(evalExpr env a)
  | .pow a n => (evalExpr env a) ^ n

/-- Lexicographic comparison of character lists by Unicode code point —
Python's string ordering. -/
def charListLe : List Char → List Char → Bool
  | [], _ => true
  | _ :: _, [] => false
  | a :: as, b :: bs =>
    if a.toNat < b.toNat then true
    else if b.toNat < a.toNat then false
    else charListLe as bs

/-- Python string `<=`: lexicographic by code point. -/
def strLe (a b : String) : Bool := charListLe a.data b.data

/-- The ordering relation used to sort parameter names. -/
def StrLeR (a b : String) : Prop := strLe a b = true

instance : DecidableRel StrLeR := fun a b => by unfold StrLeR; infer_instance

/-- Python `sorted(..., key=str)` on symbol names: lexicographic sort. -/
def sortStr (l : List String) : List String := List.insertionSort StrLeR l

/-- Python `str.lower()` (ASCII case folding, as `model.lower()` uses). -/
def lowerStr (s : String) : String := ⟨s.data.map Char.toLower⟩

/-- Line 190-191: the free symbols other than `x`, sorted lexicographically,
become the parameter names of a custom model. -/
def customParamNames (e : MathExpr) : List String :=
  sortStr ((freeVars e).filter (fun s => s ≠ "x"))

/-- Positional binding performed by `lambdify([x] + param_syms, expr)`:
the i-th parameter name is bound to the i-th entry of the parameter
vector, `x` to the independent variable. -/
def bindParams (names : List String) (vals : List ℚ) (xv : ℚ) : String → ℚ :=
  fun s =>
    if s = "x" then xv
    else
      match (names.zip vals).find? (fun p => p.1 = s) with
      | some p => p.2
      | none => 0

/-- The numeric function produced by `lambdify` for a custom expression. -/
def customModelFun (e : MathExpr) (names : List String) : ℚ → List ℚ → ℚ :=
  fun xv p => evalExpr (bindParams names p xv) e

/-- External numeric collaborators (scipy / numpy): the chi-squared survival
function `stats.chi2.sf`, `np.sin`, `np.exp`, real powers `x ** b`, and `pi`.
The service's behaviour under verification does not depend on their values. -/
structure Externals where
  chi2sf : ℚ → ℤ → ℚ
  sinQ : ℚ → ℚ
  expQ : ℚ → ℚ
  rpowQ : ℚ → ℚ → ℚ
  piQ : ℚ

/-- A model branch of lines 135-198: arity, numeric function, parameter
names, display name, and the initial guess `p0` handed to the optimizer. -/
structure ModelSpec where
  arity : ℕ
  f : ℚ → List ℚ → ℚ
  param_names : List String
  model_name : String
  p0 : Option (List ℚ)

/-- The JSON request body consumed by `fit` (§6 of the design):
`{ x_data, y_data, y_errors?, model?, custom_expr?, initial_guess? }`.
`custom_expr` carries the sympy-parsed tree. -/
structure FitReq where
  x_data : List ℚ
  y_data : List ℚ
  y_errors : Option (List ℚ)
  model : Option String
  custom_expr : Option MathExpr
  initial_guess : Option (List ℚ)

/-- Codomain of `np.sqrt` on a rational: `nan` for negative input, otherwise
the (symbolic) nonnegative square root of the input. -/
inductive SqrtVal where
  | nan
  | sqrtOf (q : ℚ)
deriving DecidableEq

/-- Line 212: `np.sqrt` applied to one covariance-diagonal entry. -/
def sqrtF (q : ℚ) : SqrtVal := if q < 0 then .nan else .sqrtOf q

/-- Reduced chi-squared value: a rational, or `float('inf')` (line 232). -/
inductive RedChi2 where
  | inf
  | val (q : ℚ)
deriving DecidableEq

/-- The success JSON body of lines 247-263. -/
structure FitResponse where
  parameters : List ℚ
  uncertainties : List SqrtVal
  parameter_names : List String
  r_squared : ℚ
  chi_squared : ℚ
  reduced_chi_squared : RedChi2
  p_value : Option ℚ
  dof : ℤ
  n_data : ℕ
  n_params : ℕ
  model_name : String
  x_fit : List ℚ
  y_fit : List ℚ
  residuals : List ℚ
deriving DecidableEq

/-- `np.max` on a nonempty array (0 on empty, never hit: n >= 2). -/
def lmax : List ℚ → ℚ
  | [] => 0
  | x :: xs => xs.foldl max x

/-- `np.min` on a nonempty array. -/
def lmin : List ℚ → ℚ
  | [] => 0
  | x :: xs => xs.foldl min x

/-- `np.mean`. -/
def mean (l : List ℚ) : ℚ := l.sum / (l.length : ℚ)

/-- `np.diag` of a (k x k) matrix given as rows. -/
def diagOf (m : List (List ℚ)) : List ℚ :=
  (List.range m.length).map (fun i => (m.getD i []).getD i 0)

/-- `np.linspace a b n` : n evenly spaced points from a to b inclusive. -/
def linspace (a b : ℚ) (n : ℕ) : List ℚ :=
  (List.range n).map (fun i => a + (b - a) * (i : ℚ) / ((n : ℚ) - 1))

/-- Lines 128-132: request validation (mismatched lengths, fewer than 2
points); `none` means validation passed. -/
def validationError (x y : List ℚ) : Option String :=
  if x.length ≠ y.length then some ("x_data and y_data must have the same length")
  else if x.length < 2 then some ("At least 2 data points are required")
  else none

/-- Lines 135-140: the linear model branch (`a*x + b`, parameters a, b,
no explicit p0). -/
def linearMS : ModelSpec :=
  ⟨2, fun xv p => p.getD 0 0 * xv + p.getD 1 0, ["a", "b"], "y = a·x + b", none⟩

/-- Lines 135-200: select the model branch from the (lowercased) selector;
build the model function, parameter names, display name and initial guess.
Unknown selectors and custom-expression failures produce the error strings
of the source. -/
def setupModel (ext : Externals) (modelType : String) (customExpr : Option MathExpr)
    (initialGuess : Option (List ℚ)) (x y : List ℚ) : Except String ModelSpec :=
  if modelType = "linear" then
    .ok linearMS
  else if modelType = "quadratic" then
    .ok ⟨3, fun xv p => p.getD 0 0 * xv ^ 2 + p.getD 1 0 * xv + p.getD 2 0,
        ["a", "b", "c"], "y = a·x² + b·x + c", none⟩
  else if modelType = "cubic" then
    .ok ⟨4, fun xv p => p.getD 0 0 * xv ^ 3 + p.getD 1 0 * xv ^ 2 + p.getD 2 0 * xv + p.getD 3 0,
        ["a", "b", "c", "d"], "y = a·x³ + b·x² + c·x + d", none⟩
  else if modelType = "power" then
    .ok ⟨2, fun xv p => p.getD 0 0 * ext.rpowQ xv (p.getD 1 0), ["a", "b"], "y = a·x^b",
        some [1, 1]⟩
  else if modelType = "exponential" then
    .ok ⟨2, fun xv p => p.getD 0 0 * ext.expQ (p.getD 1 0 * xv), ["a", "b"], "y = a·exp(b·x)",
        some [1, 1 / 10]⟩
  else if modelType = "sinusoidal" then
    .ok ⟨4, fun xv p => p.getD 0 0 * ext.sinQ (p.getD 1 0 * xv + p.getD 2 0) + p.getD 3 0,
        ["A", "ω", "φ", "D"], "y = A·sin(ω·x + φ) + D",
        some [(lmax y - lmin y) / 2,
              if lmax x ≠ lmin x then 2 * ext.piQ / (lmax x - lmin x) else 1,
              0, mean y]⟩
  else if modelType = "custom" then
    match customExpr with
    | none => .error ("custom_expr is required for custom model")
    | some e =>
      if "x" ∈ freeVars e then
        .ok ⟨(customParamNames e).length, customModelFun e (customParamNames e),
            customParamNames e, "y = custom expression", initialGuess⟩
      else .error ("Custom expression must contain variable 'x'")
  else .error ("Unknown model type: " ++ modelType)

/-- The external nonlinear-least-squares optimizer: model function, x, y,
optional sigma, optional p0 → fitted parameters and covariance matrix. -/
def Regressor : Type :=
  (ℚ → List ℚ → ℚ) → List ℚ → List ℚ → Option (List ℚ) → Option (List ℚ) →
    Except String (List ℚ × List (List ℚ))

/-- scipy's sigma shape check: a supplied 1-d sigma must have the length of
`ydata` (the scalar-sigma broadcast case is not exercised by any claim and
is modelled as rejected). -/
def sigmaShapeOk (yErr : Option (List ℚ)) (y : List ℚ) : Bool :=
  match yErr with
  | none => true
  | some es => es.length = y.length

/-- curve_fit calls `model(x, *p0)`; a guess whose length differs from the
model arity raises a TypeError inside the fit call. -/
def p0ArityOk (p0 : Option (List ℚ)) (arity : ℕ) : Bool :=
  match p0 with
  | none => true
  | some g => g.length = arity

/-- Lines 202-209: the call into `scipy.optimize.curve_fit`, wrapped so that
any exception becomes the 400 error "Fitting failed: ...".  The two
deterministic pre-iteration failures (sigma shape, wrong-arity model call)
are modelled explicitly; everything else is the abstract `reg`. -/
def runCurveFit (reg : Regressor) (ms : ModelSpec) (x y : List ℚ)
    (yErr : Option (List ℚ)) : Except String (List ℚ × List (List ℚ)) :=
  if sigmaShapeOk yErr y then
    if p0ArityOk ms.p0 ms.arity then
      reg ms.f x y yErr ms.p0
    else .error ("Fitting failed: model function called with wrong number of arguments")
  else .error ("Fitting failed: `sigma` has incorrect shape.")

/-- Line 215: model predictions at the fitted parameters. -/
def yPredOf (f : ℚ → List ℚ → ℚ) (x popt : List ℚ) : List ℚ :=
  x.map (fun xi => f xi popt)

/-- Line 245: residuals `y_i - f(x_i; p*)`, in input order. -/
def residOf (f : ℚ → List ℚ → ℚ) (x y popt : List ℚ) : List ℚ :=
  List.zipWith (fun yi pi => yi - pi) y (yPredOf f x popt)

/-- Line 216: unweighted sum of squared residuals. -/
def ssResOf (f : ℚ → List ℚ → ℚ) (x y popt : List ℚ) : ℚ :=
  ((residOf f x y popt).map (fun r => r ^ 2)).sum

/-- Line 217: total sum of squares about the mean of y. -/
def ssTotOf (y : List ℚ) : ℚ :=
  (y.map (fun yi => (yi - mean y) ^ 2)).sum

/-- Line 218: R², with the 0 convention when ss_tot = 0. -/
def rSquaredOf (f : ℚ → List ℚ → ℚ) (x y popt : List ℚ) : ℚ :=
  if ssTotOf y ≠ 0 then 1 - ssResOf f x y popt / ssTotOf y else 0

/-- Line 223: degrees of freedom, `n_data - n_params` (may be ≤ 0). -/
def dofOf (x popt : List ℚ) : ℤ := (x.length : ℤ) - (popt.length : ℤ)

/-- Lines 226-230: chi-squared — weighted when y-errors are present,
otherwise the unweighted ss_res. -/
def chi2Of (f : ℚ → List ℚ → ℚ) (x y : List ℚ) (yErr : Option (List ℚ))
    (popt : List ℚ) : ℚ :=
  match yErr with
  | some es => (List.zipWith (fun r e => (r / e) ^ 2) (residOf f x y popt) es).sum
  | none => ssResOf f x y popt

/-- Line 232: reduced chi-squared, `+inf` when dof ≤ 0. -/
def redChi2Of (f : ℚ → List ℚ → ℚ) (x y : List ℚ) (yErr : Option (List ℚ))
    (popt : List ℚ) : RedChi2 :=
  if 0 < dofOf x popt then .val (chi2Of f x y yErr popt / (dofOf x popt : ℚ))
  else .inf

/-- Lines 235-238: the p-value, present only when dof > 0 and y-errors were
supplied. -/
def pValueOf (ext : Externals) (f : ℚ → List ℚ → ℚ) (x y : List ℚ)
    (yErr : Option (List ℚ)) (popt : List ℚ) : Option ℚ :=
  if 0 < dofOf x popt ∧ yErr ≠ none then
    some (ext.chi2sf (chi2Of f x y yErr popt) (dofOf x popt))
  else none

/-- Lines 211-263: assemble the success response from the regression
output. -/
def evaluate (ext : Externals) (ms : ModelSpec) (x y : List ℚ)
    (yErr : Option (List ℚ)) (popt : List ℚ) (pcov : List (List ℚ)) : FitResponse :=
  ⟨popt,
   (diagOf pcov).map sqrtF,
   ms.param_names,
   rSquaredOf ms.f x y popt,
   chi2Of ms.f x y yErr popt,
   redChi2Of ms.f x y yErr popt,
   pValueOf ext ms.f x y yErr popt,
   dofOf x popt,
   x.length,
   popt.length,
   ms.model_name,
   linspace (lmin x) (lmax x) 200,
   (linspace (lmin x) (lmax x) 200).map (fun xi => ms.f xi popt),
   residOf ms.f x y popt⟩

/-- The body of `fit` after the model selector has been lowercased:
Validate → Compile → Regress → Evaluate, each failure short-circuiting to
the error string the source returns with status 400. -/
def fitCore (ext : Externals) (reg : Regressor) (modelType : String)
    (x y : List ℚ) (yErr : Option (List ℚ)) (customExpr : Option MathExpr)
    (initialGuess : Option (List ℚ)) : Except String FitResponse :=
  match validationError x y with
  | some e => .error e
  | none =>
    match setupModel ext modelType customExpr initialGuess x y with
    | .error e => .error e
    | .ok ms =>
      match runCurveFit reg ms x y yErr with
      | .error e => .error e
      | .ok pc => .ok (evaluate ext ms x y yErr pc.1 pc.2)

/-- The `/fit` endpoint (lines 107-266).  Line 124:
`model_type = data.get('model', 'linear').lower()`.  Lines 120-122 convert a
truthy y_errors list to an array and leave `None`/`[]` unchanged — an
identity in this model, so `y_errors` is passed through as received. -/
def fit (ext : Externals) (reg : Regressor) (req : FitReq) : Except String FitResponse :=
  fitCore ext reg (lowerStr (req.model.getD "linear"))
    req.x_data req.y_data req.y_errors req.custom_expr req.initial_guess

/-- Exact weighted least squares for the straight-line model via the normal
equations: weights w, design matrix rows (x_i, 1).  This is the model of
what `scipy.optimize.curve_fit` computes on the linear model (for a linear
model the LM iteration's fixed point is the exact WLS solution; the
covariance is `(AᵀWA)⁻¹`, not rescaled, matching `absolute_sigma=True`). -/
def wDot (w l : List ℚ) : ℚ := (List.zipWith (fun wi ai => wi * ai) w l).sum

def wDotSq (w l : List ℚ) : ℚ := (List.zipWith (fun wi ai => wi * ai * ai) w l).sum

/-- Pointwise product of two data arrays. -/
def prodL (x y : List ℚ) : List ℚ := List.zipWith (fun a b => a * b) x y

/-- Determinant of the weighted 2x2 normal matrix for the line model. -/
def wlsDet (x w : List ℚ) : ℚ := w.sum * wDotSq w x - wDot w x * wDot w x

/-- The unweighted design determinant `n·Σx² − (Σx)²`. -/
def linDet (x : List ℚ) : ℚ :=
  (x.length : ℚ) * (prodL x x).sum - x.sum * x.sum

def wlsLinear (x y w : List ℚ) : Except String (List ℚ × List (List ℚ)) :=
  if wlsDet x w = 0 then .error ("Optimal parameters not found")
  else
    .ok ([(w.sum * wDot w (prodL x y) - wDot w x * wDot w y) / wlsDet x w,
          (wDotSq w x * wDot w y - wDot w x * wDot w (prodL x y)) / wlsDet x w],
         [[w.sum / wlsDet x w, -wDot w x / wlsDet x w],
          [-wDot w x / wlsDet x w, wDotSq w x / wlsDet x w]])

/-- curve_fit specialised to the linear model: weight 1/σ² per point when
sigma is supplied, unit weights otherwise. -/
def curveFitLinear : Regressor := fun _f x y yErr _p0 =>
  match yErr with
  | some es => wlsLinear x y (es.map (fun e => 1 / (e * e)))
  | none => wlsLinear x y (x.map (fun _ => 1))

/-- A concrete instantiation of the external collaborators, used to run the
pipeline on closed inputs. -/
def ext0 : Externals := ⟨fun _ _ => 1 / 2, fun _ => 0, fun _ => 1, fun _ _ => 1, 355 / 113⟩

/-- sympify("a*x+b"). -/
def exprAxB : MathExpr := .add (.mul (.var "a") (.var "x")) (.var "b")

/-- sympify("b + a*x"). -/
def exprBAx : MathExpr := .add (.var "b") (.mul (.var "a") (.var "x"))

/-- sympify("a*y+b"): `x` does not occur free. -/
def exprAyB : MathExpr := .add (.mul (.var "a") (.var "y")) (.var "b")

/-- Fallback response used to extract the payload of a successful call. -/
def dummyResp : FitResponse :=
  ⟨[], [], [], 0, 0, .inf, none, 0, 0, 0, "", [], [], []⟩

/-! ### Order properties of the parameter-name sort -/

lemma charListLe_cons_lt {a b : Char} (h : a.toNat < b.toNat) (as bs : List Char) :
    charListLe (a :: as) (b :: bs) = true := by
  simp only [charListLe]
  rw [if_pos h]

lemma charListLe_cons_eq {a b : Char} {as bs : List Char} (h : a.toNat = b.toNat)
    (h2 : charListLe as bs = true) : charListLe (a :: as) (b :: bs) = true := by
  simp only [charListLe]
  rw [if_neg (by omega), if_neg (by omega)]
  exact h2

lemma charListLe_cons_inv {a b : Char} {as bs : List Char}
    (h : charListLe (a :: as) (b :: bs) = true) :
    a.toNat < b.toNat ∨ (a.toNat = b.toNat ∧ charListLe as bs = true) := by
  by_cases h1 : a.toNat < b.toNat
  · exact .inl h1
  · by_cases h2 : b.toNat < a.toNat
    · simp only [charListLe] at h
      rw [if_neg h1, if_pos h2] at h
      cases h
    · refine .inr ⟨by omega, ?_⟩
      simp only [charListLe] at h
      rwa [if_neg h1, if_neg h2] at h

lemma charListLe_total : ∀ as bs : List Char,
    charListLe as bs = true ∨ charListLe bs as = true
  | [], _ => .inl rfl
  | _ :: _, [] => .inr rfl
  | a :: as, b :: bs => by
    rcases Nat.lt_trichotomy a.toNat b.toNat with h | h | h
    · exact .inl (charListLe_cons_lt h as bs)
    · rcases charListLe_total as bs with h2 | h2
      · exact .inl (charListLe_cons_eq h h2)
      · exact .inr (charListLe_cons_eq h.symm h2)
    · exact .inr (charListLe_cons_lt h bs as)

lemma charListLe_trans : ∀ as bs cs : List Char, charListLe as bs = true →
    charListLe bs cs = true → charListLe as cs = true
  | [], _, _, _, _ => rfl
  | _ :: _, [], _, h1, _ => by simp [charListLe] at h1
  | _ :: _, _ :: _, [], _, h2 => by simp [charListLe] at h2
  | a :: as, b :: bs, c :: cs, h1, h2 => by
    rcases charListLe_cons_inv h1 with hab | ⟨hab, hab2⟩ <;>
      rcases charListLe_cons_inv h2 with hbc | ⟨hbc, hbc2⟩
    · exact charListLe_cons_lt (by omega) _ _
    · exact charListLe_cons_lt (by omega) _ _
    · exact charListLe_cons_lt (by omega) _ _
    · exact charListLe_cons_eq (by omega) (charListLe_trans as bs cs hab2 hbc2)

instance : IsTotal String StrLeR := ⟨fun a b => charListLe_total a.data b.data⟩

instance : IsTrans String StrLeR :=
  ⟨fun a b c => charListLe_trans a.data b.data c.data⟩

lemma sorted_customParamNames (e : MathExpr) : List.Sorted StrLeR (customParamNames e) :=
  List.sorted_insertionSort StrLeR _

lemma mem_customParamNames {e : MathExpr} {s : String} :
    s ∈ customParamNames e ↔ s ∈ freeVars e ∧ s ≠ "x" := by
  unfold customParamNames sortStr
  rw [(List.perm_insertionSort _ _).mem_iff]
  simp [List.mem_filter]

lemma nodup_customParamNames (e : MathExpr) : (customParamNames e).Nodup := by
  unfold customParamNames sortStr freeVars
  rw [(List.perm_insertionSort _ _).nodup_iff]
  exact ((collectVars e).nodup_dedup).filter _

/-! ### Pipeline inversion -/

lemma validationError_none_iff {x y : List ℚ} :
    validationError x y = none ↔ x.length = y.length ∧ 2 ≤ x.length := by
  unfold validationError
  constructor
  · intro h
    split at h
    · exact absurd h (by simp)
    · rename_i hne
      split at h
      · exact absurd h (by simp)
      · rename_i hlt
        exact ⟨not_not.mp hne, Nat.not_lt.mp hlt⟩
  · rintro ⟨h1, h2⟩
    rw [if_neg (not_not_intro h1), if_neg (Nat.not_lt.mpr h2)]

/-- Running the pipeline when every stage succeeds. -/
lemma fitCore_ok_of {ext : Externals} {reg : Regressor} {mt : String}
    {x y : List ℚ} {yErr : Option (List ℚ)} {ce : Option MathExpr}
    {ig : Option (List ℚ)} {ms : ModelSpec} {pc : List ℚ × List (List ℚ)}
    (hv : validationError x y = none)
    (hs : setupModel ext mt ce ig x y = .ok ms)
    (hsig : sigmaShapeOk yErr y = true)
    (hp0 : p0ArityOk ms.p0 ms.arity = true)
    (hr : reg ms.f x y yErr ms.p0 = .ok pc) :
    fitCore ext reg mt x y yErr ce ig = .ok (evaluate ext ms x y yErr pc.1 pc.2) := by
  unfold fitCore runCurveFit
  simp only [hv, hs]
  rw [if_pos hsig, if_pos hp0, hr]

/-- Inverting a successful pipeline run into its stages. -/
lemma fitCore_ok_inv {ext : Externals} {reg : Regressor} {mt : String}
    {x y : List ℚ} {yErr : Option (List ℚ)} {ce : Option MathExpr}
    {ig : Option (List ℚ)} {resp : FitResponse}
    (h : fitCore ext reg mt x y yErr ce ig = .ok resp) :
    validationError x y = none ∧
    ∃ ms popt pcov,
      setupModel ext mt ce ig x y = .ok ms ∧
      sigmaShapeOk yErr y = true ∧
      p0ArityOk ms.p0 ms.arity = true ∧
      reg ms.f x y yErr ms.p0 = .ok (popt, pcov) ∧
      resp = evaluate ext ms x y yErr popt pcov := by
  unfold fitCore at h
  cases hv : validationError x y with
  | some e => simp [hv] at h
  | none =>
    simp only [hv] at h
    refine ⟨rfl, ?_⟩
    cases hs : setupModel ext mt ce ig x y with
    | error e => simp [hs] at h
    | ok ms =>
      simp only [hs] at h
      unfold runCurveFit at h
      by_cases hsig : sigmaShapeOk yErr y = true
      · rw [if_pos hsig] at h
        by_cases hp0 : p0ArityOk ms.p0 ms.arity = true
        · rw [if_pos hp0] at h
          cases hr : reg ms.f x y yErr ms.p0 with
          | error e => simp [hr] at h
          | ok pc =>
            simp only [hr] at h
            refine ⟨ms, pc.1, pc.2, rfl, hsig, hp0, by rw [hr], ?_⟩
            cases h
            rfl
        · rw [if_neg hp0] at h
          simp at h
      · rw [if_neg hsig] at h
        simp at h

/-- Equality of service results is decidable (used to evaluate the pipeline
on closed inputs). -/
instance : DecidableEq (Except String FitResponse) := fun a b =>
  match a, b with
  | .error a, .error b =>
    if h : a = b then isTrue (by rw [h]) else isFalse (by simp [h])
  | .ok a, .ok b =>
    if h : a = b then isTrue (by rw [h]) else isFalse (by simp [h])
  | .error _, .ok _ => isFalse (by simp)
  | .ok _, .error _ => isFalse (by simp)

/-- The custom branch of `setupModel` when `x` occurs free. -/
lemma setupModel_custom_eq (ext : Externals) (e : MathExpr) (ig : Option (List ℚ))
    (x y : List ℚ) (hx : "x" ∈ freeVars e) :
    setupModel ext "custom" (some e) ig x y =
      .ok ⟨(customParamNames e).length, customModelFun e (customParamNames e),
          customParamNames e, "y = custom expression", ig⟩ := by
  unfold setupModel
  rw [if_neg (by decide), if_neg (by decide), if_neg (by decide), if_neg (by decide),
      if_neg (by decide), if_neg (by decide), if_pos rfl]
  change (if "x" ∈ freeVars e then
      Except.ok (⟨(customParamNames e).length, customModelFun e (customParamNames e),
        customParamNames e, "y = custom expression", ig⟩ : ModelSpec)
    else Except.error ("Custom expression must contain variable 'x'")) = _
  rw [if_pos hx]

/-- Inverting the custom branch of `setupModel`. -/
lemma setupModel_custom_ok {ext : Externals} {e : MathExpr} {ig : Option (List ℚ)}
    {x y : List ℚ} {ms : ModelSpec}
    (hs : setupModel ext "custom" (some e) ig x y = .ok ms) :
    ms = ⟨(customParamNames e).length, customModelFun e (customParamNames e),
        customParamNames e, "y = custom expression", ig⟩ ∧ "x" ∈ freeVars e := by
  by_cases hx : "x" ∈ freeVars e
  · rw [setupModel_custom_eq ext e ig x y hx] at hs
    injection hs with h2
    exact ⟨h2.symm, hx⟩
  · unfold setupModel at hs
    rw [if_neg (by decide), if_neg (by decide), if_neg (by decide), if_neg (by decide),
        if_neg (by decide), if_neg (by decide), if_pos rfl] at hs
    change (if "x" ∈ freeVars e then
        Except.ok (⟨(customParamNames e).length, customModelFun e (customParamNames e),
          customParamNames e, "y = custom expression", ig⟩ : ModelSpec)
      else Except.error ("Custom expression must contain variable 'x'")) = _ at hs
    rw [if_neg hx] at hs
    simp at hs

/-! ### Concrete runs used to instantiate the theorems -/

/-- A weighted linear request: x=[0,1,2], y=[1,3,6], uniform unit errors. -/
def reqW : FitReq := ⟨[0, 1, 2], [1, 3, 6], some [1, 1, 1], some "linear", none, none⟩

def respW : FitResponse := (fit ext0 curveFitLinear reqW).toOption.getD dummyResp

set_option maxRecDepth 100000 in
lemma fit_reqW : fit ext0 curveFitLinear reqW = .ok respW := by decide

/-- An unweighted custom-model request compiling "a*x+b". -/
def reqC : FitReq := ⟨[0, 1, 2], [1, 3, 6], none, some "custom", some exprAxB, none⟩

def respC : FitResponse := (fit ext0 curveFitLinear reqC).toOption.getD dummyResp

set_option maxRecDepth 100000 in
lemma fit_reqC : fit ext0 curveFitLinear reqC = .ok respC := by decide

/-- Constant-data request of the spec's R² = 0 test: x=[0,1], y=[5,5]. -/
def reqConst : FitReq := ⟨[0, 1], [5, 5], none, some "linear", none, none⟩

/-! ### Claims -/

/-- C1: for every custom-model request that compiles (and whose fit
succeeds), the returned parameter_names are exactly the free symbols of the
parsed expression other than the independent variable `x`, sorted
lexicographically by name and duplicate-free, and the compiled model binds
the fitted parameter vector positionally in that order; in particular
`a*x+b` and `b + a*x` both compile to parameter order `["a", "b"]`. -/
theorem C1_param_names_sorted_free_symbols :
    (∀ (ext : Externals) (reg : Regressor) (req : FitReq) (resp : FitResponse)
        (e : MathExpr), req.model = some "custom" → req.custom_expr = some e →
        fit ext reg req = .ok resp →
        resp.parameter_names = customParamNames e ∧
        List.Sorted StrLeR resp.parameter_names ∧
        resp.parameter_names.Nodup ∧
        (∀ s, s ∈ resp.parameter_names ↔ s ∈ freeVars e ∧ s ≠ "x")) ∧
    customParamNames exprAxB = ["a", "b"] ∧
    customParamNames exprBAx = ["a", "b"] ∧
    (∀ a b xv : ℚ,
        customModelFun exprAxB (customParamNames exprAxB) xv [a, b] = a * xv + b ∧
        customModelFun exprBAx (customParamNames exprBAx) xv [a, b] = a * xv + b) := by
  refine ⟨?_, rfl, rfl, fun a b xv => ⟨rfl, ?_⟩⟩
  · intro ext reg req resp e hm hc hok
    unfold fit at hok
    obtain ⟨hv, ms, popt, pcov, hs, hsig2, hp02, hr, hresp⟩ := fitCore_ok_inv hok
    rw [hm] at hs
    have hmt : lowerStr ((some "custom" : Option String).getD "linear") = "custom" := rfl
    rw [hmt, hc] at hs
    have hnames : ms.param_names = customParamNames e := by
      rw [(setupModel_custom_ok hs).1]
    have hpn : resp.parameter_names = customParamNames e := by
      rw [hresp]
      show ms.param_names = customParamNames e
      exact hnames
    refine ⟨hpn, ?_, ?_, ?_⟩
    · rw [hpn]; exact sorted_customParamNames e
    · rw [hpn]; exact nodup_customParamNames e
    · intro s; rw [hpn]; exact mem_customParamNames
  · show b + a * xv = a * xv + b
    ring

/-- C1 witness: the custom run on `reqC` ("a*x+b"). -/
theorem C1_witness :
    respC.parameter_names = customParamNames exprAxB ∧
    List.Sorted StrLeR respC.parameter_names ∧
    respC.parameter_names.Nodup ∧
    (∀ s, s ∈ respC.parameter_names ↔ s ∈ freeVars exprAxB ∧ s ≠ "x") :=
  C1_param_names_sorted_free_symbols.1 ext0 curveFitLinear reqC respC exprAxB rfl rfl fit_reqC

/-- C2 (amended): a custom request whose initial guess length differs from
the compiled parameter count is rejected, but by the attempted fitting call
("Fitting failed: ..."), not by pre-fit validation; the optimizer itself is
never consulted (the result is the same for every regressor). -/
theorem C2_guess_mismatch_fitting_error (ext : Externals) (reg : Regressor)
    (x y : List ℚ) (yErr : Option (List ℚ)) (e : MathExpr) (g : List ℚ)
    (hlen : x.length = y.length) (h2 : 2 ≤ x.length)
    (hx : "x" ∈ freeVars e)
    (hsig : sigmaShapeOk yErr y = true)
    (hg : g.length ≠ (customParamNames e).length) :
    fit ext reg ⟨x, y, yErr, some "custom", some e, some g⟩ =
      .error ("Fitting failed: model function called with wrong number of arguments") := by
  have hv : validationError x y = none := validationError_none_iff.mpr ⟨hlen, h2⟩
  have hs : setupModel ext "custom" (some e) (some g) x y =
      .ok ⟨(customParamNames e).length, customModelFun e (customParamNames e),
          customParamNames e, "y = custom expression", some g⟩ :=
    setupModel_custom_eq ext e (some g) x y hx
  have hp0 : ¬ p0ArityOk (some g) (customParamNames e).length = true := by
    simp [p0ArityOk, hg]
  show fitCore ext reg "custom" x y yErr (some e) (some g) = _
  unfold fitCore runCurveFit
  simp only [hv, hs]
  rw [if_pos hsig, if_neg hp0]

/-- C2 counterexample: with x=[0,1], y=[0,1], custom model "a*x+b" and
initial guess [1,2,3] (length 3 ≠ parameter count 2), validation and
compilation both succeed, yet the request is rejected with the fitting-stage
error — not the validation error the claim asserts, and the fit call is
attempted. -/
theorem C2_counterexample :
    validationError [0, 1] [0, 1] = none ∧
    (setupModel ext0 "custom" (some exprAxB) (some [1, 2, 3]) [0, 1] [0, 1]).isOk = true ∧
    fit ext0 curveFitLinear ⟨[0, 1], [0, 1], none, some "custom", some exprAxB, some [1, 2, 3]⟩ =
      .error ("Fitting failed: model function called with wrong number of arguments") :=
  ⟨rfl, rfl, by decide⟩

/-- C2 witness: guess [5] against the two compiled parameters of "a*x+b". -/
theorem C2_witness :
    fit ext0 curveFitLinear ⟨[0, 1, 2], [1, 3, 6], none, some "custom", some exprAxB, some [5]⟩ =
      .error ("Fitting failed: model function called with wrong number of arguments") :=
  C2_guess_mismatch_fitting_error ext0 curveFitLinear [0, 1, 2] [1, 3, 6] none exprAxB [5]
    rfl (by decide) (by decide) rfl (by decide)

/-- C3: for every successful fit, p_value is present exactly when
y-uncertainties were supplied and dof > 0, and then equals the chi-squared
upper-tail probability (`chi2sf`) at the observed chi-squared with dof
degrees of freedom. -/
theorem C3_p_value_iff (ext : Externals) (reg : Regressor) (req : FitReq)
    (resp : FitResponse) (hok : fit ext reg req = .ok resp) :
    (resp.p_value ≠ none ↔ req.y_errors ≠ none ∧ 0 < resp.dof) ∧
    (req.y_errors ≠ none → 0 < resp.dof →
      resp.p_value = some (ext.chi2sf resp.chi_squared resp.dof)) := by
  unfold fit at hok
  obtain ⟨hv, ms, popt, pcov, hs, hsig, hp0, hr, hresp⟩ := fitCore_ok_inv hok
  subst hresp
  constructor
  · show pValueOf ext ms.f req.x_data req.y_data req.y_errors popt ≠ none ↔
      req.y_errors ≠ none ∧ 0 < dofOf req.x_data popt
    unfold pValueOf
    split
    · rename_i hd
      simp [hd.1, hd.2]
    · rename_i hd
      simp only [ne_eq, not_true_eq_false, iff_false]
      tauto
  · intro hy hd
    show pValueOf ext ms.f req.x_data req.y_data req.y_errors popt =
      some (ext.chi2sf (chi2Of ms.f req.x_data req.y_data req.y_errors popt)
        (dofOf req.x_data popt))
    unfold pValueOf
    rw [if_pos ⟨hd, hy⟩]

/-- C3 witness: the weighted run `reqW` (dof = 1 > 0). -/
theorem C3_witness :
    (respW.p_value ≠ none ↔ reqW.y_errors ≠ none ∧ 0 < respW.dof) ∧
    (reqW.y_errors ≠ none → 0 < respW.dof →
      respW.p_value = some (ext0.chi2sf respW.chi_squared respW.dof)) :=
  C3_p_value_iff ext0 curveFitLinear reqW respW fit_reqW

/-- C4: for every successful fit, chi_squared is the weighted sum of squared
residuals when y-uncertainties were supplied and the unweighted SS_res
otherwise, and reduced_chi_squared is chi_squared / dof when dof > 0 and
+infinity otherwise. -/
theorem C4_chi_squared_def (ext : Externals) (reg : Regressor) (req : FitReq)
    (resp : FitResponse) (hok : fit ext reg req = .ok resp) :
    (req.y_errors = none →
      resp.chi_squared = (resp.residuals.map (fun r => r ^ 2)).sum) ∧
    (∀ es, req.y_errors = some es →
      resp.chi_squared = (List.zipWith (fun r e => (r / e) ^ 2) resp.residuals es).sum) ∧
    resp.reduced_chi_squared =
      (if 0 < resp.dof then RedChi2.val (resp.chi_squared / (resp.dof : ℚ)) else RedChi2.inf) := by
  unfold fit at hok
  obtain ⟨hv, ms, popt, pcov, hs, hsig, hp0, hr, hresp⟩ := fitCore_ok_inv hok
  subst hresp
  refine ⟨?_, ?_, ?_⟩
  · intro hy
    show chi2Of ms.f req.x_data req.y_data req.y_errors popt = _
    rw [hy]
    rfl
  · intro es hy
    show chi2Of ms.f req.x_data req.y_data req.y_errors popt = _
    rw [hy]
    rfl
  · rfl

/-- C4 witness: the weighted run `reqW`. -/
theorem C4_witness :
    (reqW.y_errors = none →
      respW.chi_squared = (respW.residuals.map (fun r => r ^ 2)).sum) ∧
    (∀ es, reqW.y_errors = some es →
      respW.chi_squared = (List.zipWith (fun r e => (r / e) ^ 2) respW.residuals es).sum) ∧
    respW.reduced_chi_squared =
      (if 0 < respW.dof then RedChi2.val (respW.chi_squared / (respW.dof : ℚ))
       else RedChi2.inf) :=
  C4_chi_squared_def ext0 curveFitLinear reqW respW fit_reqW

/-- C5: for every successful fit, r_squared = 1 - SS_res / SS_tot, with the
convention r_squared = 0 when SS_tot = 0; on constant data x=[0,1],
y=[5,5] the service returns R² = 0, not a division error. -/
theorem C5_r_squared_def :
    (∀ (ext : Externals) (reg : Regressor) (req : FitReq) (resp : FitResponse),
        fit ext reg req = .ok resp →
        resp.r_squared =
          (if ssTotOf req.y_data ≠ 0
           then 1 - (resp.residuals.map (fun r => r ^ 2)).sum / ssTotOf req.y_data
           else 0) ∧
        ssTotOf req.y_data = (req.y_data.map (fun yi => (yi - mean req.y_data) ^ 2)).sum) ∧
    (fit ext0 curveFitLinear reqConst).toOption.map FitResponse.r_squared = some 0 := by
  refine ⟨?_, by decide⟩
  intro ext reg req resp hok
  unfold fit at hok
  obtain ⟨hv, ms, popt, pcov, hs, hsig, hp0, hr, hresp⟩ := fitCore_ok_inv hok
  subst hresp
  exact ⟨rfl, rfl⟩

/-- C5 witness: the weighted run `reqW`. -/
theorem C5_witness :
    respW.r_squared =
      (if ssTotOf reqW.y_data ≠ 0
       then 1 - (respW.residuals.map (fun r => r ^ 2)).sum / ssTotOf reqW.y_data
       else 0) ∧
    ssTotOf reqW.y_data = (reqW.y_data.map (fun yi => (yi - mean reqW.y_data) ^ 2)).sum :=
  C5_r_squared_def.1 ext0 curveFitLinear reqW respW fit_reqW

/-- C6: for every successful fit, the reported uncertainties are the
elementwise square roots of the covariance diagonal returned by the
regressor; a negative diagonal entry yields NaN in the corresponding slot,
and a nonnegative entry yields its square root unchanged. -/
theorem C6_uncertainties_sqrt_diag (ext : Externals) (reg : Regressor) (req : FitReq)
    (resp : FitResponse) (hok : fit ext reg req = .ok resp) :
    ∃ ms popt pcov,
      setupModel ext (lowerStr (req.model.getD "linear")) req.custom_expr req.initial_guess
          req.x_data req.y_data = .ok ms ∧
      reg ms.f req.x_data req.y_data req.y_errors ms.p0 = .ok (popt, pcov) ∧
      resp.uncertainties = (diagOf pcov).map sqrtF ∧
      (∀ i, i < (diagOf pcov).length →
        ((diagOf pcov).getD i 0 < 0 →
          resp.uncertainties.getD i SqrtVal.nan = SqrtVal.nan) ∧
        (¬ (diagOf pcov).getD i 0 < 0 →
          resp.uncertainties.getD i SqrtVal.nan = SqrtVal.sqrtOf ((diagOf pcov).getD i 0))) := by
  unfold fit at hok
  obtain ⟨hv, ms, popt, pcov, hs, hsig, hp0, hr, hresp⟩ := fitCore_ok_inv hok
  subst hresp
  refine ⟨ms, popt, pcov, hs, hr, rfl, ?_⟩
  have hgd : ∀ (l : List ℚ) (i : ℕ), i < l.length →
      (l.map sqrtF).getD i SqrtVal.nan = sqrtF (l.getD i 0) := by
    intro l i hi
    rw [List.getD_eq_getElem?_getD, List.getD_eq_getElem?_getD, List.getElem?_map,
        List.getElem?_eq_getElem hi]
    rfl
  intro i hi
  constructor
  · intro hneg
    show ((diagOf pcov).map sqrtF).getD i SqrtVal.nan = SqrtVal.nan
    rw [hgd _ _ hi]
    unfold sqrtF
    rw [if_pos hneg]
  · intro hpos
    show ((diagOf pcov).map sqrtF).getD i SqrtVal.nan = SqrtVal.sqrtOf ((diagOf pcov).getD i 0)
    rw [hgd _ _ hi]
    unfold sqrtF
    rw [if_neg hpos]

/-- C6 witness: the weighted run `reqW`. -/
theorem C6_witness :
    ∃ ms popt pcov,
      setupModel ext0 (lowerStr (reqW.model.getD "linear")) reqW.custom_expr reqW.initial_guess
          reqW.x_data reqW.y_data = .ok ms ∧
      curveFitLinear ms.f reqW.x_data reqW.y_data reqW.y_errors ms.p0 = .ok (popt, pcov) ∧
      respW.uncertainties = (diagOf pcov).map sqrtF ∧
      (∀ i, i < (diagOf pcov).length →
        ((diagOf pcov).getD i 0 < 0 →
          respW.uncertainties.getD i SqrtVal.nan = SqrtVal.nan) ∧
        (¬ (diagOf pcov).getD i 0 < 0 →
          respW.uncertainties.getD i SqrtVal.nan = SqrtVal.sqrtOf ((diagOf pcov).getD i 0))) :=
  C6_uncertainties_sqrt_diag ext0 curveFitLinear reqW respW fit_reqW

/-- C8: every custom request whose expression parses but in which the
independent variable `x` is not among the free symbols fails with the
missing-independent-variable error, for every regressor — no regression is
performed.  (The spec's example "a*y+b" is the witness instance.) -/
theorem C8_missing_x (ext : Externals) (reg : Regressor) (e : MathExpr)
    (x y : List ℚ) (yErr ig : Option (List ℚ))
    (hlen : x.length = y.length) (h2 : 2 ≤ x.length)
    (hx : "x" ∉ freeVars e) :
    fit ext reg ⟨x, y, yErr, some "custom", some e, ig⟩ =
      .error ("Custom expression must contain variable 'x'") := by
  have hv : validationError x y = none := validationError_none_iff.mpr ⟨hlen, h2⟩
  have hs : setupModel ext "custom" (some e) ig x y =
      .error ("Custom expression must contain variable 'x'") := by
    unfold setupModel
    rw [if_neg (by decide), if_neg (by decide), if_neg (by decide), if_neg (by decide),
        if_neg (by decide), if_neg (by decide), if_pos rfl]
    change (if "x" ∈ freeVars e then
        Except.ok (⟨(customParamNames e).length, customModelFun e (customParamNames e),
          customParamNames e, "y = custom expression", ig⟩ : ModelSpec)
      else Except.error ("Custom expression must contain variable 'x'")) = _
    rw [if_neg hx]
  show fitCore ext reg "custom" x y yErr (some e) ig = _
  unfold fitCore
  simp only [hv, hs]

/-- C8 witness: the spec's expression "a*y+b", where only `y` appears
besides the parameters. -/
theorem C8_witness :
    fit ext0 curveFitLinear ⟨[0, 1], [0, 1], none, some "custom", some exprAyB, none⟩ =
      .error ("Custom expression must contain variable 'x'") :=
  C8_missing_x ext0 curveFitLinear exprAyB [0, 1] [0, 1] none none rfl (by decide) (by decide)

/-- C9 (amended): an empty y_errors list is NOT treated as absent — `[]` is
not `None`, so it is passed to curve_fit as sigma, whose shape check rejects
it: the request fails with a fitting error (for every regressor) instead of
running the unweighted fit the claim describes. -/
theorem C9_empty_y_errors_rejected (ext : Externals) (reg : Regressor)
    (x y : List ℚ) (mt : Option String) (ce : Option MathExpr) (ig : Option (List ℚ))
    (ms : ModelSpec) (hlen : x.length = y.length) (h2 : 2 ≤ x.length)
    (hs : setupModel ext (lowerStr (mt.getD "linear")) ce ig x y = .ok ms) :
    fit ext reg ⟨x, y, some [], mt, ce, ig⟩ =
      .error ("Fitting failed: `sigma` has incorrect shape.") := by
  have hv : validationError x y = none := validationError_none_iff.mpr ⟨hlen, h2⟩
  have hy0 : y.length ≠ 0 := by
    have := hlen ▸ h2
    omega
  have hsig : ¬ sigmaShapeOk (some []) y = true := by
    simp only [sigmaShapeOk, List.length_nil]
    simp [Ne.symm hy0]
  unfold fit fitCore runCurveFit
  simp only [hv, hs]
  rw [if_neg hsig]

/-- C9 counterexample: y_errors = [] makes the call fail with a fitting
error, while the very same request with y_errors omitted succeeds (with
unweighted chi-squared 0 and a null p-value) — the two are not equivalent,
refuting the claim at a concrete input. -/
theorem C9_counterexample :
    fit ext0 curveFitLinear ⟨[0, 1], [0, 1], some [], some "linear", none, none⟩ =
      .error ("Fitting failed: `sigma` has incorrect shape.") ∧
    (fit ext0 curveFitLinear ⟨[0, 1], [0, 1], none, some "linear", none, none⟩).toOption.map
        FitResponse.p_value = some none ∧
    (fit ext0 curveFitLinear ⟨[0, 1], [0, 1], none, some "linear", none, none⟩).toOption.map
        FitResponse.chi_squared = some 0 :=
  ⟨by decide, by decide, by decide⟩

/-- C9 witness. -/
theorem C9_witness :
    fit ext0 curveFitLinear ⟨[0, 1, 2], [1, 3, 5], some [], some "linear", none, none⟩ =
      .error ("Fitting failed: `sigma` has incorrect shape.") :=
  C9_empty_y_errors_rejected ext0 curveFitLinear [0, 1, 2] [1, 3, 5] (some "linear")
    none none linearMS rfl (by decide) rfl

/-- C10: the model selector is lowercased before matching ("LINEAR" behaves
exactly as "linear"), and a request without a model field defaults to the
linear model — fitted with parameter names ["a","b"], not rejected as an
unknown selector. -/
theorem C10_selector_case_default :
    (∀ (ext : Externals) (reg : Regressor) (x y : List ℚ) (yE ig : Option (List ℚ))
        (ce : Option MathExpr),
        fit ext reg ⟨x, y, yE, some "LINEAR", ce, ig⟩ =
          fit ext reg ⟨x, y, yE, some "linear", ce, ig⟩) ∧
    (∀ (ext : Externals) (reg : Regressor) (x y : List ℚ) (yE ig : Option (List ℚ))
        (ce : Option MathExpr),
        fit ext reg ⟨x, y, yE, none, ce, ig⟩ =
          fit ext reg ⟨x, y, yE, some "linear", ce, ig⟩) ∧
    (fit ext0 curveFitLinear ⟨[0, 1, 2], [1, 3, 5], none, none, none, none⟩).toOption.map
        FitResponse.parameter_names = some ["a", "b"] ∧
    (fit ext0 curveFitLinear ⟨[0, 1, 2], [1, 3, 5], none, some "LINEAR", none, none⟩).toOption.map
        FitResponse.model_name = some "y = a·x + b" :=
  ⟨fun _ _ _ _ _ _ _ => rfl, fun _ _ _ _ _ _ _ => rfl, by decide, by decide⟩

/-! ### Uniform-weight invariance of the linear least-squares solution (C7) -/

lemma zipWith_replicate_left (f : ℚ → ℚ → ℚ) (c : ℚ) (l : List ℚ) (n : ℕ)
    (h : l.length = n) :
    List.zipWith f (List.replicate n c) l = l.map (f c) := by
  subst h
  induction l with
  | nil => rfl
  | cons a l ih =>
    simp only [List.length_cons, List.replicate_succ, List.zipWith_cons_cons,
      List.map_cons, ih]

lemma zipWith_replicate_right (f : ℚ → ℚ → ℚ) (c : ℚ) (l : List ℚ) (n : ℕ)
    (h : l.length = n) :
    List.zipWith f l (List.replicate n c) = l.map (fun a => f a c) := by
  subst h
  induction l with
  | nil => rfl
  | cons a l ih =>
    simp only [List.length_cons, List.replicate_succ, List.zipWith_cons_cons,
      List.map_cons, ih]

lemma sum_map_mul_left_q (c : ℚ) (f : ℚ → ℚ) (l : List ℚ) :
    (l.map (fun a => c * f a)).sum = c * (l.map f).sum := by
  induction l with
  | nil => simp
  | cons a l ih =>
    simp only [List.map_cons, List.sum_cons, ih]
    ring

lemma sum_replicate_q (n : ℕ) (c : ℚ) : (List.replicate n c).sum = n * c := by
  induction n with
  | zero => simp
  | succ n ih =>
    simp only [List.replicate_succ, List.sum_cons, ih, Nat.cast_succ]
    ring

lemma zipWith_self_q (f : ℚ → ℚ → ℚ) (l : List ℚ) :
    List.zipWith f l l = l.map (fun a => f a a) := by
  induction l with
  | nil => rfl
  | cons a l ih => simp [ih]

lemma wDot_replicate (c : ℚ) (l : List ℚ) (n : ℕ) (h : l.length = n) :
    wDot (List.replicate n c) l = c * l.sum := by
  unfold wDot
  rw [zipWith_replicate_left _ c l n h]
  have h2 := sum_map_mul_left_q c id l
  simpa using h2

lemma wDotSq_replicate (c : ℚ) (l : List ℚ) (n : ℕ) (h : l.length = n) :
    wDotSq (List.replicate n c) l = c * (prodL l l).sum := by
  unfold wDotSq
  rw [zipWith_replicate_left _ c l n h]
  have hfun : (fun ai : ℚ => c * ai * ai) = (fun a : ℚ => c * (a * a)) := by
    funext a
    ring
  rw [hfun, sum_map_mul_left_q c (fun a => a * a) l]
  unfold prodL
  rw [zipWith_self_q]

lemma wlsDet_replicate (x : List ℚ) (c : ℚ) (n : ℕ) (h : x.length = n) :
    wlsDet x (List.replicate n c) = c * c * linDet x := by
  unfold wlsDet linDet
  rw [sum_replicate_q, wDot_replicate c x n h, wDotSq_replicate c x n h, h]
  ring

/-- Scaling all weights by the same nonzero constant leaves the fitted
parameter vector of the linear model unchanged (weights are projective):
the weighted and unit-weight normal equations have the same solution. -/
lemma wlsLinear_popt_eq (x y : List ℚ) (c : ℚ) (hc : c ≠ 0) (n : ℕ)
    (hx : x.length = n) (hy : y.length = n) (hdet : linDet x ≠ 0) :
    ∃ pc1 pc2, wlsLinear x y (List.replicate n c) = .ok pc1 ∧
      wlsLinear x y (List.replicate n 1) = .ok pc2 ∧ pc1.1 = pc2.1 := by
  have hlen_xy : (prodL x y).length = n := by
    unfold prodL
    rw [List.length_zipWith, hx, hy, min_self]
  have hdc : wlsDet x (List.replicate n c) = c * c * linDet x := wlsDet_replicate x c n hx
  have hd1 : wlsDet x (List.replicate n 1) = linDet x := by
    have h2 := wlsDet_replicate x 1 n hx
    simpa using h2
  have hc2 : c * c ≠ 0 := mul_ne_zero hc hc
  have hne_c : wlsDet x (List.replicate n c) ≠ 0 := by
    rw [hdc]
    exact mul_ne_zero hc2 hdet
  have hne_1 : wlsDet x (List.replicate n 1) ≠ 0 := by
    rw [hd1]
    exact hdet
  unfold wlsLinear
  rw [if_neg hne_c, if_neg hne_1]
  refine ⟨_, _, rfl, rfl, ?_⟩
  show [_, _] = [_, _]
  rw [hdc, hd1, sum_replicate_q n c, sum_replicate_q n 1,
      wDot_replicate c x n hx, wDot_replicate c y n hy,
      wDot_replicate c (prodL x y) n hlen_xy, wDotSq_replicate c x n hx,
      wDot_replicate 1 x n hx, wDot_replicate 1 y n hy,
      wDot_replicate 1 (prodL x y) n hlen_xy, wDotSq_replicate 1 x n hx]
  have e1 : (n : ℚ) * c * (c * (prodL x y).sum) - c * x.sum * (c * y.sum) =
      (c * c) * ((n : ℚ) * (prodL x y).sum - x.sum * y.sum) := by ring
  have e2 : c * (prodL x x).sum * (c * y.sum) - c * x.sum * (c * (prodL x y).sum) =
      (c * c) * ((prodL x x).sum * y.sum - x.sum * (prodL x y).sum) := by ring
  rw [e1, e2, mul_div_mul_left _ _ hc2, mul_div_mul_left _ _ hc2]
  norm_num

/-- Residuals of the linear model have the length of the data. -/
lemma residOf_length (f : ℚ → List ℚ → ℚ) (x y popt : List ℚ) (n : ℕ)
    (hx : x.length = n) (hy : y.length = n) :
    (residOf f x y popt).length = n := by
  unfold residOf yPredOf
  rw [List.length_zipWith, List.length_map, hx, hy, min_self]

/-- Uniform sigma rescales the weighted chi-squared by 1/σ². -/
lemma chi2Of_replicate_sigma (f : ℚ → List ℚ → ℚ) (x y popt : List ℚ)
    (σ : ℚ) (hσ : σ ≠ 0) (n : ℕ) (hx : x.length = n) (hy : y.length = n) :
    chi2Of f x y (some (List.replicate n σ)) popt =
      (1 / (σ * σ)) * chi2Of f x y none popt := by
  show (List.zipWith (fun r e => (r / e) ^ 2) (residOf f x y popt)
      (List.replicate n σ)).sum = 1 / (σ * σ) * ssResOf f x y popt
  rw [zipWith_replicate_right _ σ _ n (residOf_length f x y popt n hx hy)]
  unfold ssResOf
  have hfun : (fun r : ℚ => (r / σ) ^ 2) = (fun r : ℚ => (1 / (σ * σ)) * r ^ 2) := by
    funext r
    rw [div_pow, pow_two, div_eq_mul_inv, one_div]
    ring
  rw [hfun, sum_map_mul_left_q (1 / (σ * σ)) (fun r => r ^ 2) (residOf f x y popt)]

lemma map_one_eq_replicate (l : List ℚ) :
    l.map (fun _ => (1 : ℚ)) = List.replicate l.length 1 := by
  induction l with
  | nil => rfl
  | cons a l ih => simp [List.replicate_succ, ih]

/-- C7 (amended): on any linear-model dataset with a nondegenerate design
(`linDet x ≠ 0`), supplying uniform y-errors σ > 0 produces exactly the same
fitted parameter vector as omitting y_errors; the unweighted call never has a
p-value while the weighted call has one whenever dof > 0; and the two
reduced chi-squareds differ whenever the unweighted chi-squared is nonzero,
σ² ≠ 1 and dof > 0 (the original claim asserts they always differ, which the
counterexample refutes: on exactly-fitting data both are 0). -/
theorem C7_uniform_sigma_same_parameters (ext : Externals) (x y : List ℚ) (σ : ℚ)
    (hσ : σ ≠ 0) (n : ℕ) (hx : x.length = n) (hy : y.length = n) (h2 : 2 ≤ n)
    (hdet : linDet x ≠ 0) :
    ∃ r1 r2,
      fit ext curveFitLinear ⟨x, y, some (List.replicate n σ), some "linear", none, none⟩ =
        .ok r1 ∧
      fit ext curveFitLinear ⟨x, y, none, some "linear", none, none⟩ = .ok r2 ∧
      r1.parameters = r2.parameters ∧
      r2.p_value = none ∧
      (0 < r1.dof → r1.p_value = some (ext.chi2sf r1.chi_squared r1.dof)) ∧
      (r2.chi_squared ≠ 0 → σ * σ ≠ 1 → 0 < r2.dof →
        r1.reduced_chi_squared ≠ r2.reduced_chi_squared) := by
  have hc : (1 : ℚ) / (σ * σ) ≠ 0 := one_div_ne_zero (mul_ne_zero hσ hσ)
  obtain ⟨pc1, pc2, hw, hu, hpopt⟩ := wlsLinear_popt_eq x y (1 / (σ * σ)) hc n hx hy hdet
  have hv : validationError x y = none :=
    validationError_none_iff.mpr ⟨hx.trans hy.symm, hx ▸ h2⟩
  have hs : ∀ ig ce, setupModel ext "linear" ce ig x y = .ok linearMS := fun _ _ => rfl
  have hsigW : sigmaShapeOk (some (List.replicate n σ)) y = true := by
    simp [sigmaShapeOk, List.length_replicate, hy]
  have hregW : curveFitLinear linearMS.f x y (some (List.replicate n σ)) linearMS.p0 =
      .ok pc1 := by
    show wlsLinear x y ((List.replicate n σ).map (fun e => 1 / (e * e))) = .ok pc1
    rw [List.map_replicate]
    exact hw
  have hregU : curveFitLinear linearMS.f x y none linearMS.p0 = .ok pc2 := by
    show wlsLinear x y (x.map (fun _ => 1)) = .ok pc2
    rw [map_one_eq_replicate, hx]
    exact hu
  have hfit1 : fit ext curveFitLinear
      ⟨x, y, some (List.replicate n σ), some "linear", none, none⟩ =
      .ok (evaluate ext linearMS x y (some (List.replicate n σ)) pc1.1 pc1.2) :=
    fitCore_ok_of hv (hs none none) hsigW rfl hregW
  have hfit2 : fit ext curveFitLinear ⟨x, y, none, some "linear", none, none⟩ =
      .ok (evaluate ext linearMS x y none pc2.1 pc2.2) :=
    fitCore_ok_of hv (hs none none) rfl rfl hregU
  have hpv2 : pValueOf ext linearMS.f x y none pc2.1 = none := by
    unfold pValueOf
    rw [if_neg]
    intro h
    exact h.2 rfl
  refine ⟨_, _, hfit1, hfit2, hpopt, hpv2, ?_, ?_⟩
  · intro hd
    show pValueOf ext linearMS.f x y (some (List.replicate n σ)) pc1.1 =
      some (ext.chi2sf (chi2Of linearMS.f x y (some (List.replicate n σ)) pc1.1)
        (dofOf x pc1.1))
    unfold pValueOf
    rw [if_pos ⟨hd, by simp⟩]
  · intro hss hσ1 hd
    have hd1 : (0 : ℤ) < dofOf x pc1.1 := by
      rw [hpopt]
      exact hd
    have hdq : ((dofOf x pc2.1 : ℤ) : ℚ) ≠ 0 := by
      have : (0 : ℤ) < dofOf x pc2.1 := hd
      exact Int.cast_ne_zero.mpr (by omega)
    show redChi2Of linearMS.f x y (some (List.replicate n σ)) pc1.1 ≠
      redChi2Of linearMS.f x y none pc2.1
    unfold redChi2Of
    rw [if_pos hd1, if_pos (show (0 : ℤ) < dofOf x pc2.1 from hd), hpopt]
    intro heq
    have heq2 : chi2Of linearMS.f x y (some (List.replicate n σ)) pc2.1 /
        ((dofOf x pc2.1 : ℤ) : ℚ) =
        chi2Of linearMS.f x y none pc2.1 / ((dofOf x pc2.1 : ℤ) : ℚ) := by
      injection heq
    rw [chi2Of_replicate_sigma linearMS.f x y pc2.1 σ hσ n hx hy] at heq2
    have heq3 : 1 / (σ * σ) * chi2Of linearMS.f x y none pc2.1 =
        chi2Of linearMS.f x y none pc2.1 := by
      have h6 : 1 / (σ * σ) * chi2Of linearMS.f x y none pc2.1 / ((dofOf x pc2.1 : ℤ) : ℚ) *
            ((dofOf x pc2.1 : ℤ) : ℚ) =
          chi2Of linearMS.f x y none pc2.1 / ((dofOf x pc2.1 : ℤ) : ℚ) *
            ((dofOf x pc2.1 : ℤ) : ℚ) :=
        congrArg (fun t : ℚ => t * ((dofOf x pc2.1 : ℤ) : ℚ)) heq2
      rw [div_mul_cancel₀ _ hdq, div_mul_cancel₀ _ hdq] at h6
      exact h6
    have heq4 : 1 / (σ * σ) = 1 := by
      have h5 : (1 / (σ * σ)) * chi2Of linearMS.f x y none pc2.1 =
          1 * chi2Of linearMS.f x y none pc2.1 := by
        rw [heq3, one_mul]
      exact mul_right_cancel₀ hss h5
    apply hσ1
    rw [one_div] at heq4
    exact inv_eq_one.mp heq4

/-- C7 counterexample: on the exactly linear dataset x=[0,1,2], y=[1,3,5]
with uniform σ = 2, the weighted and unweighted calls return the same
fitted parameters but also the SAME reduced chi-squared (both 0) — refuting
the claim that `reduced_chi_squared` differs between the two calls. -/
theorem C7_counterexample :
    (fit ext0 curveFitLinear
        ⟨[0, 1, 2], [1, 3, 5], some [2, 2, 2], some "linear", none, none⟩).toOption.map
      FitResponse.reduced_chi_squared = some (RedChi2.val 0) ∧
    (fit ext0 curveFitLinear
        ⟨[0, 1, 2], [1, 3, 5], none, some "linear", none, none⟩).toOption.map
      FitResponse.reduced_chi_squared = some (RedChi2.val 0) ∧
    (fit ext0 curveFitLinear
        ⟨[0, 1, 2], [1, 3, 5], some [2, 2, 2], some "linear", none, none⟩).toOption.map
      FitResponse.parameters = some [2, 1] ∧
    (fit ext0 curveFitLinear
        ⟨[0, 1, 2], [1, 3, 5], none, some "linear", none, none⟩).toOption.map
      FitResponse.parameters = some [2, 1] :=
  ⟨by decide, by decide, by decide, by decide⟩

/-- C7 witness: σ = 2 on x=[0,1,2], y=[1,3,6] (noisy data, nondegenerate
design). -/
theorem C7_witness :
    ∃ r1 r2,
      fit ext0 curveFitLinear
          ⟨[0, 1, 2], [1, 3, 6], some (List.replicate 3 2), some "linear", none, none⟩ =
        .ok r1 ∧
      fit ext0 curveFitLinear ⟨[0, 1, 2], [1, 3, 6], none, some "linear", none, none⟩ =
        .ok r2 ∧
      r1.parameters = r2.parameters ∧
      r2.p_value = none ∧
      (0 < r1.dof → r1.p_value = some (ext0.chi2sf r1.chi_squared r1.dof)) ∧
      (r2.chi_squared ≠ 0 → (2 : ℚ) * 2 ≠ 1 → 0 < r2.dof →
        r1.reduced_chi_squared ≠ r2.reduced_chi_squared) :=
  C7_uniform_sigma_same_parameters ext0 [0, 1, 2] [1, 3, 6] 2 (by decide) 3 rfl rfl
    (by decide) (by decide)

end Fitting
